import Mathlib

/-!
# Verification of the matter.js key model (`packages/matter.js/src/crypto/Key.ts`)

This development gives a shallow embedding of the JWK-style key record and its
construction pipeline from `Key.ts`:

* the base-64url binary codecs (`Base64Codecs`, backed by the repository's
  `Base64` module which is modelled from the spec),
* the curve OID lookup and the DER-based importers (`sec1`, `pkcs8`, `spki`),
* the raw SEC1 public-point importer (`Translators.publicBits`),
* the paired-binary importer (`Translators.keyPairBits`),
* the asserted aliases (`publicKey`, `privateKey`, `keyPair`),
* curve inference (`inferCurve`) and public-point derivation
  (`derivePublicFromPrivate`),
* the `Key(properties)` factory and the `SymmetricKey` convenience factory.

Bytes are modelled as natural numbers (`< 256` where it matters) and JavaScript
strings as lists of character codes. JavaScript `undefined` is modelled with
`Option`; JavaScript truthiness of strings/arrays is modelled explicitly where
the source relies on it (`that.d`, `that.x`, `that.xBits`). Failures (`throw
new KeyError(...)`) are modelled with `Except KeyErr`, one error kind per
distinct throw-site meaning, named after the error taxonomy of the spec.
-/

/-- Decidable equality of `Except` results, so that concrete evaluations of
the fallible operations can be settled by `decide`. -/
instance {ε α : Type} [DecidableEq ε] [DecidableEq α] : DecidableEq (Except ε α)
  | .error e, .error f =>
    if h : e = f then isTrue (by rw [h]) else isFalse (by simp [h])
  | .error _, .ok _ => isFalse (by simp)
  | .ok _, .error _ => isFalse (by simp)
  | .ok a, .ok b =>
    if h : a = b then isTrue (by rw [h]) else isFalse (by simp [h])

/-- A byte, as stored in a `ByteArray`/`Uint8Array` (a natural number, `< 256`
for real byte arrays; bounds appear as hypotheses where they matter). -/
abbrev Byte := Nat

/-- A JavaScript `Uint8Array`/`ByteArray`: a list of bytes. -/
abbrev Bytes := List Nat

/-- A JavaScript string: its list of character codes. -/
abbrev Str := List Nat

/-! ## Base64url codec

Modelled from the spec: the repository's `Base64` module
(`packages/matter.js/src/codec/Base64Codec.ts`, not under `src/`) used by the
key model with the `url = true` flag — URL-safe alphabet, no padding on
encode, tolerant decode (padding and out-of-alphabet characters are ignored),
with `decode (encode b) = b` for every byte sequence `b`. -/

/-- Character code of the base64url alphabet at index `v` (for `v < 64`):
`A`–`Z`, `a`–`z`, `0`–`9`, `-`, `_`. -/
def b64Char (v : Nat) : Nat :=
  if v < 26 then 65 + v
  else if v < 52 then 97 + (v - 26)
  else if v < 62 then 48 + (v - 52)
  else if v = 62 then 45
  else 95

/-- Index of a character code in the base64url alphabet, `none` when the
character is not in the alphabet (tolerant decode skips it). -/
def b64Val (c : Nat) : Option Nat :=
  if 65 ≤ c ∧ c ≤ 90 then some (c - 65)
  else if 97 ≤ c ∧ c ≤ 122 then some (c - 97 + 26)
  else if 48 ≤ c ∧ c ≤ 57 then some (c - 48 + 52)
  else if c = 45 then some 62
  else if c = 95 then some 63
  else none

/-- Unpadded base64url encoding: 3 input bytes become 4 alphabet characters;
a final 1- or 2-byte group becomes 2 or 3 characters with no `=` padding. -/
def encodeB64 : Bytes → Str
  | [] => []
  | [a] => [b64Char (a / 4), b64Char (a % 4 * 16)]
  | [a, b] => [b64Char (a / 4), b64Char (a % 4 * 16 + b / 16), b64Char (b % 16 * 4)]
  | a :: b :: c :: rest =>
      b64Char (a / 4) :: b64Char (a % 4 * 16 + b / 16) ::
      b64Char (b % 16 * 4 + c / 64) :: b64Char (c % 64) :: encodeB64 rest

/-- Regroup a stream of 6-bit values into bytes; a lone trailing value carries
no complete byte and is dropped. -/
def decodeVals : List Nat → Bytes
  | [] => []
  | [_] => []
  | [v0, v1] => [v0 * 4 + v1 / 16]
  | [v0, v1, v2] => [v0 * 4 + v1 / 16, v1 % 16 * 16 + v2 / 4]
  | v0 :: v1 :: v2 :: v3 :: rest =>
      (v0 * 4 + v1 / 16) :: (v1 % 16 * 16 + v2 / 4) :: (v2 % 4 * 64 + v3) :: decodeVals rest

/-- Tolerant base64url decode: ignore characters outside the alphabet
(including `=` padding), then regroup the 6-bit values into bytes. -/
def decodeB64 (s : Str) : Bytes :=
  decodeVals (s.filterMap b64Val)

/-- A base64url alphabet character (decidable). -/
def isB64urlChar (c : Nat) : Bool := (b64Val c).isSome

/-- An unpadded base64url string: every character is in the URL-safe alphabet
and the length is not congruent to 1 modulo 4. -/
def isUnpaddedB64url (s : Str) : Bool :=
  s.all isB64urlChar && decide (s.length % 4 ≠ 1)

/-! ## Key data model (`Key.ts`) -/

/-- The `KeyType` enum (`Key.ts` 17–21). -/
inductive KeyType
  | EC
  | RSA
  | oct
deriving DecidableEq

/-- The `CurveType` enum (`Key.ts` 23–27): `P-256`, `P-384`, `P-521`. -/
inductive CurveType
  | p256
  | p384
  | p521
deriving DecidableEq

/-- The `BinaryKeyPair` record (`Key.ts` 42–45). -/
structure BinaryKeyPair where
  publicKey : Bytes
  privateKey : Bytes
deriving DecidableEq

/-- Error kinds for the single `KeyError` class, one per distinct throw-site
meaning, named after the spec's error taxonomy:

* `badVersion` — "SEC 1/PKCS #8 key version mismatch" (`checkDerVersion`);
* `unsupportedAlgorithm` — "Unsupported PKCS #8/SPKI decryption algorithm";
* `unknownCurve` — "Unsupported ... EC curve" (`getDerCurve`) and
  "Cannot infer named curve from key length" (`inferCurve`);
* `unsupportedCompression` — "Unsupported public key compression";
* `badFormat` — "Invalid public key encoding", "Illegal public key format
  specifier" and "Missing object in ... key" (`getDerObjectID`);
* `missingField` — "Key field ... is not defined" (asserted aliases; dead
  code on the three alias read paths, whose targets never resolve to
  `undefined` — see claim C10);
* `missingKeyNode` — "Missing ... key node" (`getDerKey`, a `MatterError`);
* `typeError` — the JavaScript `TypeError` raised by the unguarded
  `outer?._elements?.[2]._bytes` access in the PKCS #8 importer, and by
  `Translators.publicBits.get` spreading the codec value `false` when a
  coordinate field is unset;
* `deriveRequiresEc`, `deriveRequiresPrivate`, `deriveUnsupportedCurve` —
  the three guards of `derivePublicFromPrivate` (`Key.ts` 509–520). -/
inductive KeyErr
  | badVersion
  | unsupportedAlgorithm
  | unknownCurve
  | unsupportedCompression
  | badFormat
  | missingField
  | missingKeyNode
  | typeError
  | deriveRequiresEc
  | deriveRequiresPrivate
  | deriveUnsupportedCurve
deriving DecidableEq

/-- The own data of a key object built by the `Key` factory. After
construction every non-base property of the JavaScript object is a computed
accessor, so the object's state is exactly its base JWK fields; of those, the
key model only ever reads or writes `kty`, `crv`, `d`, `x`, `y` and `k`
(the remaining `JWK_KEYS` — `dp`, `dq`, `e`, `ext`, `key_ops`, `n`, `oth`,
`p`, `q`, `qi`, `use`, `alg` — are copied verbatim and never consulted, so
they are omitted here). `none` is JavaScript `undefined`. -/
structure KeyState where
  kty : Option KeyType := none
  crv : Option CurveType := none
  d : Option Str := none
  x : Option Str := none
  y : Option Str := none
  k : Option Str := none
deriving DecidableEq

/-- Truthiness of `that.d` (a JavaScript string: falsy iff absent or empty). -/
def dTruthy (s : KeyState) : Bool :=
  match s.d with
  | some str => !str.isEmpty
  | none => false

/-- Truthiness of `that.x`. -/
def xTruthy (s : KeyState) : Bool :=
  match s.x with
  | some str => !str.isEmpty
  | none => false

/-- Truthiness of `that.y`. -/
def yTruthy (s : KeyState) : Bool :=
  match s.y with
  | some str => !str.isEmpty
  | none => false

/-! ### Base-64 binary codecs (`Base64Codecs`, `Key.ts` 408–412 and 472–478)

`privateBits ↔ d`, `xBits ↔ x`, `yBits ↔ y`. The getter is
`that[target] !== undefined && Base64.decode(that[target])`: when the base
field is undefined, the `&&` chain short-circuits and the read yields the
JavaScript value `false` — falsy, but crucially NOT `undefined`; the setter
stores `Base64.encode(value, true)` or `undefined`. -/

/-- The JavaScript value produced by a Base64 codec getter: `false` when the
base string field is undefined, else the decoded bytes. It is never
`undefined`, which matters to every strict `=== undefined` comparison
downstream. -/
inductive CodecRead
  | jsFalse
  | bytes (b : Bytes)
deriving DecidableEq

/-- Read of the `privateBits` binary alias. -/
def privateBitsGet (s : KeyState) : CodecRead :=
  match s.d with
  | some str => .bytes (decodeB64 str)
  | none => .jsFalse

/-- Read of the `xBits` binary alias. -/
def xBitsGet (s : KeyState) : CodecRead :=
  match s.x with
  | some str => .bytes (decodeB64 str)
  | none => .jsFalse

/-- Read of the `yBits` binary alias. -/
def yBitsGet (s : KeyState) : CodecRead :=
  match s.y with
  | some str => .bytes (decodeB64 str)
  | none => .jsFalse

/-- Write of the `privateBits` binary alias. -/
def privateBitsSet (s : KeyState) (v : Option Bytes) : KeyState :=
  { s with d := v.map encodeB64 }

/-- Write of the `xBits` binary alias. -/
def xBitsSet (s : KeyState) (v : Option Bytes) : KeyState :=
  { s with x := v.map encodeB64 }

/-- Write of the `yBits` binary alias. -/
def yBitsSet (s : KeyState) (v : Option Bytes) : KeyState :=
  { s with y := v.map encodeB64 }

/-- `inferCurve` (`Key.ts` 420–440): when no curve is set, guess it from the
key length — 66 → P-521, 48 → P-384, 32 → P-256, anything else throws
"Cannot infer named curve from key length" (`unknownCurve`). -/
def inferCurve (s : KeyState) (bytes : Nat) : Except KeyErr KeyState :=
  if s.crv.isSome then .ok s
  else
    match bytes with
    | 66 => .ok { s with crv := some CurveType.p521 }
    | 48 => .ok { s with crv := some CurveType.p384 }
    | 32 => .ok { s with crv := some CurveType.p256 }
    | _ => .error .unknownCurve

/-- `Translators.publicBits.set` (`Key.ts` 342–367), the raw SEC1/SPKI public
point importer: even length → "Invalid public key encoding"; first byte 2 or
3 → "Unsupported public key compression"; 5 → "Illegal public key format
specifier"; 4 — and, the `switch` having no `default`, any other first
byte — falls through to curve inference and the coordinate split
`xBits = input.slice(1, coordinateLength + 1)`,
`yBits = input.slice(coordinateLength + 1)`. -/
def publicBitsSet (s : KeyState) (input : Bytes) : Except KeyErr KeyState :=
  if input.length % 2 = 0 then .error .badFormat
  else
    let b0 := input.headD 0
    if b0 = 2 ∨ b0 = 3 then .error .unsupportedCompression
    else if b0 = 5 then .error .badFormat
    else
      let coordinateLength := (input.length - 1) / 2
      match inferCurve s coordinateLength with
      | .error e => .error e
      | .ok s1 =>
        let s2 := { s1 with kty := some KeyType.EC }
        let s3 := xBitsSet s2 (some ((input.drop 1).take coordinateLength))
        .ok (yBitsSet s3 (some (input.drop (coordinateLength + 1))))

/-- `Translators.publicBits.get` (`Key.ts` 369–375). The guard compares
`this.xBits` / `this.yBits` against `undefined`, but the codec getters yield
`false` — never `undefined` — when the field is unset, so the
`return undefined` branch is dead: with a missing coordinate the spread
`[0x04, ...this.xBits, ...this.yBits]` spreads the value `false` and raises
a JavaScript `TypeError`. With both coordinates present it yields the
uncompressed point `04 ‖ xBits ‖ yBits`. -/
def publicBitsGet (s : KeyState) : Except KeyErr Bytes :=
  match xBitsGet s, yBitsGet s with
  | .bytes xb, .bytes yb => .ok (4 :: (xb ++ yb))
  | _, _ => .error .typeError

/-- `Translators.keyPairBits.set` (`Key.ts` 380–383): assigning `publicBits`
runs the raw public-point importer, then `privateBits` stores the scalar. -/
def keyPairBitsSet (s : KeyState) (pair : BinaryKeyPair) : Except KeyErr KeyState :=
  match publicBitsSet s pair.publicKey with
  | .error e => .error e
  | .ok s1 => .ok (privateBitsSet s1 (some pair.privateKey))

/-- The value of a successful `keyPairBits.get` (`Key.ts` 389–394): its
`privateKey` member is the raw `this.privateBits` codec read, which is the
JavaScript value `false` — not bytes — when `d` is undefined. -/
structure JsBinaryKeyPair where
  publicKey : Bytes
  privateKey : CodecRead
deriving DecidableEq

/-- `Translators.keyPairBits.get` (`Key.ts` 385–395): it first reads
`this.publicBits` (which may raise the `TypeError` above), then
`this.privateBits`. Neither read is ever `undefined`, so the early
`return;` (undefined) branch is dead and the pair is returned even when
`privateBits` is the value `false`. -/
def keyPairBitsGet (s : KeyState) : Except KeyErr JsBinaryKeyPair :=
  match publicBitsGet s with
  | .error e => .error e
  | .ok pub => .ok ⟨pub, privateBitsGet s⟩

/-! ### Asserted aliases (`AssertedAliases`, `Key.ts` 414–418 and 489–505)

The asserted getter reads the underlying binary alias and throws
"Key field ... is not defined" (`missingField`) only when the result is
strictly `=== undefined`. None of the three targets ever resolves to
`undefined` — the codec getters yield `false` and `publicBits.get` /
`keyPairBits.get` either raise a `TypeError` or return a value — so the
`missingField` throw is dead code on all three read paths and each asserted
read is the underlying read unchanged. The setter writes the underlying
target unconditionally. -/

/-- Read of the asserted `publicKey` alias: `publicBits.get` never returns
`undefined`, so this is `publicBits.get` itself (bytes, or `TypeError`). -/
def publicKeyGet (s : KeyState) : Except KeyErr Bytes := publicBitsGet s

/-- Read of the asserted `privateKey` alias: `privateBits` is `false` — not
`undefined` — when `d` is unset, so the read returns the codec value
unchanged, with no error of any kind. -/
def privateKeyGet (s : KeyState) : CodecRead := privateBitsGet s

/-- Read of the asserted `keyPair` alias: `keyPairBits.get` never returns
`undefined`, so this is `keyPairBits.get` itself. -/
def keyPairGet (s : KeyState) : Except KeyErr JsBinaryKeyPair := keyPairBitsGet s

/-! ### Public-point derivation (`derivePublicFromPrivate`, `Key.ts` 507–530) -/

/-- Modelled from the spec: the external EC provider (the `elliptic` package,
not part of this repository. §6.4: `derivePublicPoint(curve, d) -> (x, y)`).
The source consumes the provider through
`ec.keyFromPrivate(privateKey).getPublic()` whose `getX()`/`getY()` are
arbitrary-precision integers (bn.js `BN` values), so the provider is modelled
as returning the two affine coordinates as natural numbers. -/
abbrev ECProvider := CurveType → Bytes → Nat × Nat

/-- bn.js `BN.prototype.toArray()` with no arguments, as called by
`derivePublicFromPrivate`: the minimal-length big-endian byte array of the
number (at least one byte, so `0 ↦ [0]`) — with no zero-padding to any fixed
width. Written with explicit fuel (the number itself bounds the recursion
depth) so that it is structurally recursive. -/
def bnToArrayAux : Nat → Nat → Bytes
  | 0, n => [n % 256]
  | fuel + 1, n => if n < 256 then [n] else bnToArrayAux fuel (n / 256) ++ [n % 256]

/-- Minimal-length big-endian bytes of a natural number (bn.js `toArray()`). -/
def bnToArray (n : Nat) : Bytes := bnToArrayAux n n

/-- `derivePublicFromPrivate` (`Key.ts` 507–530): requires an EC key with a
truthy private scalar and a supported curve, asks the EC provider for the
public point of `that.privateKey` (the asserted read, which under the
preceding `that.private` truthiness guard is the decoded `d` bytes — the
`jsFalse` branch is unreachable here), and installs
`xBits = new ByteArray(ecKey.getX().toArray())` and likewise `yBits`. -/
def derivePublicFromPrivate (ec : ECProvider) (s : KeyState) : Except KeyErr KeyState :=
  if s.kty ≠ some KeyType.EC then .error .deriveRequiresEc
  else if !dTruthy s then .error .deriveRequiresPrivate
  else
    match s.crv with
    | none => .error .deriveUnsupportedCurve
    | some crv =>
      match privateKeyGet s with
      | .jsFalse => .error .deriveRequiresPrivate
      | .bytes priv =>
        let p := ec crv priv
        .ok (yBitsSet (xBitsSet s (some (bnToArray p.1))) (some (bnToArray p.2)))

/-- `that.privateKey.length` as read by the factory's EC block (`Key.ts` 534);
only evaluated under the `that.d` truthiness guard, where the asserted read
yields the decoded bytes. -/
def privateKeyLen (s : KeyState) : Nat :=
  match s.d with
  | some str => (decodeB64 str).length
  | none => 0

/-- `that.xBits.length` as read by the factory's EC block (`Key.ts` 536). -/
def xBitsLen (s : KeyState) : Nat :=
  match s.x with
  | some str => (decodeB64 str).length
  | none => 0

/-- The factory's final EC normalization block (`Key.ts` 532–542): when
`that.type === KeyType.EC`, infer the curve from the private key length if
`that.d` is truthy, else from `that.xBits.length` if `that.xBits` is truthy
(a defined `x` decodes to a `Uint8Array`, which is truthy even when empty);
then derive the public point when `that.d` is truthy and `x` or `y` is falsy. -/
def ecNormalize (ec : ECProvider) (s : KeyState) : Except KeyErr KeyState :=
  if s.kty = some KeyType.EC then
    let inferred :=
      if dTruthy s then inferCurve s (privateKeyLen s)
      else if s.x.isSome then inferCurve s (xBitsLen s)
      else .ok s
    match inferred with
    | .error e => .error e
    | .ok s1 =>
      if dTruthy s1 && (!xTruthy s1 || !yTruthy s1) then derivePublicFromPrivate ec s1
      else .ok s1
  else .ok s

/-- The recognized input fields of the `Key(properties)` factory, each
optional: base JWK fields, human aliases, binary aliases, importer inputs and
asserted aliases. `priv` is the source's `private` alias (a reserved word in
Lean). The unexercised inputs are omitted: the base JWK fields that the key
model never reads back (`alg`, `ext`, …), the `algorithm`/`operations`/
`extractable` aliases targeting them, and the byte-level DER importers
(`sec1`, `pkcs8`, `spki`), which are embedded separately below over decoded
DER nodes. -/
structure KeyProps where
  crv : Option CurveType := none
  d : Option Str := none
  k : Option Str := none
  kty : Option KeyType := none
  x : Option Str := none
  y : Option Str := none
  curve : Option CurveType := none
  type : Option KeyType := none
  priv : Option Str := none
  privateBits : Option Bytes := none
  xBits : Option Bytes := none
  yBits : Option Bytes := none
  publicBits : Option Bytes := none
  keyPairBits : Option BinaryKeyPair := none
  publicKey : Option Bytes := none
  privateKey : Option Bytes := none
  keyPair : Option BinaryKeyPair := none

/-- The `Key(properties)` factory (`Key.ts` 445–545), in source order:

1. copy the base JWK fields (`JWK_KEYS` loop);
2. apply the human aliases present in the input (`curve → crv`,
   `type → kty`, `private → d`), write-through to the base fields;
3. apply the binary base-64 codecs present in the input (`privateBits`,
   `xBits`, `yBits`), encoding into the base string fields;
4. invoke the importers present in the input, in `Translators` declaration
   order (`publicBits`, then `keyPairBits`);
5. apply the asserted aliases present in the input (`publicKey` writes
   through the `publicBits` importer, `privateKey` through the
   `privateBits` codec, `keyPair` through the `keyPairBits` importer) —
   `assign` writes unconditionally whenever the input value is defined;
6. run the EC normalization block (curve inference, public derivation). -/
def Key (ec : ECProvider) (p : KeyProps) : Except KeyErr KeyState :=
  let s : KeyState := { crv := p.crv, d := p.d, k := p.k, kty := p.kty, x := p.x, y := p.y }
  let s := match p.curve with | some v => { s with crv := some v } | none => s
  let s := match p.type with | some v => { s with kty := some v } | none => s
  let s := match p.priv with | some v => { s with d := some v } | none => s
  let s := match p.privateBits with | some v => privateBitsSet s (some v) | none => s
  let s := match p.xBits with | some v => xBitsSet s (some v) | none => s
  let s := match p.yBits with | some v => yBitsSet s (some v) | none => s
  let step1 := match p.publicBits with | some v => publicBitsSet s v | none => .ok s
  match step1 with
  | .error e => .error e
  | .ok s =>
    let step2 := match p.keyPairBits with | some v => keyPairBitsSet s v | none => .ok s
    match step2 with
    | .error e => .error e
    | .ok s =>
      let step3 := match p.publicKey with | some v => publicBitsSet s v | none => .ok s
      match step3 with
      | .error e => .error e
      | .ok s =>
        let s := match p.privateKey with | some v => privateBitsSet s (some v) | none => s
        let step4 := match p.keyPair with | some v => keyPairBitsSet s v | none => .ok s
        match step4 with
        | .error e => .error e
        | .ok s => ecNormalize ec s

/-- The `SymmetricKey` factory (`Key.ts` 580–586):
`Key({ type: KeyType.oct, privateKey: privateKey })` (the `options` spread is
not exercised by any claim and is omitted). -/
def SymmetricKey (ec : ECProvider) (privateKey : Bytes) : Except KeyErr KeyState :=
  Key ec { type := some KeyType.oct, privateKey := some privateKey }

/-- A concrete EC provider instance used to evaluate constructions whose
result does not depend on the provider, and to exhibit provider outputs with
leading-zero coordinates: it returns the affine point (1, 1). -/
def ecStub : ECProvider := fun _ _ => (1, 1)

/-! ## DER importers (`Translators.sec1/pkcs8/spki`, `Key.ts` 204–339)

The DER decoder itself (`packages/matter.js/src/codec/DerCodec.ts`) is not
under `src/`; per the spec (§3.2, §4.B) it produces a tree of nodes
`{ _tag, _bytes, _elements? }`, and the translators consume that tree
immediately. The translators below are embedded from the source over an
already-decoded node; the PKCS #8 importer, which re-invokes
`DerCodec.decode` on an inner octet string, takes the decoder as an explicit
function argument modelled from the spec. -/

/-- The DER tag kinds consulted by the key translators (a subset of the
source's `DerType` enum). -/
inductive DerType
  | UnsignedInt
  | BitString
  | OctetString
  | ObjectIdentifier
  | Sequence
deriving DecidableEq

/-- A decoded DER node (spec §3.2): tag, raw content bytes, optional ordered
children. -/
structure DerNode where
  _tag : DerType
  _bytes : Bytes
  _elements : Option (List DerNode) := none

/-- DER content bytes of the `Asn1ObjectID.ecPublicKey` hex constant
`2a8648ce3d0201` (`Key.ts` 30), i.e. OID 1.2.840.10045.2.1. -/
def oidEcPublicKey : Bytes := [0x2a, 0x86, 0x48, 0xce, 0x3d, 0x02, 0x01]

/-- Bytes of the `Asn1ObjectID.prime256r1` hex constant `2a8648ce3d030107`
(`Key.ts` 31), i.e. OID 1.2.840.10045.3.1.7 — the canonical P-256 OID. -/
def oidPrime256r1 : Bytes := [0x2a, 0x86, 0x48, 0xce, 0x3d, 0x03, 0x01, 0x07]

/-- Bytes of the `Asn1ObjectID.prime384r1` hex constant `0103840022`
(`Key.ts` 32). Note these are NOT the DER content bytes of the canonical
P-384 OID 1.3.132.0.34 (which are `2b81040022`). -/
def oidPrime384r1 : Bytes := [0x01, 0x03, 0x84, 0x00, 0x22]

/-- Bytes of the `Asn1ObjectID.prime521r1` hex constant `0103840023`
(`Key.ts` 33). Note these are NOT the DER content bytes of the canonical
P-521 OID 1.3.132.0.35 (which are `2b81040023`). -/
def oidPrime521r1 : Bytes := [0x01, 0x03, 0x84, 0x00, 0x23]

/-- DER content bytes of the canonical P-384 OID 1.3.132.0.34:
`2b 81 04 00 22` (43 = 1·40 + 3, then 132 as `81 04`, 0, 34). -/
def canonicalP384Oid : Bytes := [0x2b, 0x81, 0x04, 0x00, 0x22]

/-- DER content bytes of the canonical P-521 OID 1.3.132.0.35. -/
def canonicalP521Oid : Bytes := [0x2b, 0x81, 0x04, 0x00, 0x23]

/-- `CurveLookup` (`Key.ts` 36–40), keyed in the source by the lowercase hex
of the OID content bytes; hex encoding of byte arrays is injective, so the
lookup is modelled on the byte lists themselves. -/
def CurveLookup (oid : Bytes) : Option CurveType :=
  if oid = oidPrime256r1 then some CurveType.p256
  else if oid = oidPrime384r1 then some CurveType.p384
  else if oid = oidPrime521r1 then some CurveType.p521
  else none

/-- `checkDerVersion` (`Key.ts` 204–214): `derVersion` is the node's single
content byte when the node is an `UnsignedInt` of length 1 (otherwise the
`&&` chain leaves a falsy non-number, which is `!==` any version number);
a strict mismatch throws "key version mismatch" (`badVersion`). -/
def checkDerVersion (node : Option DerNode) (version : Nat) : Except KeyErr Unit :=
  match node with
  | some n =>
    if n._tag = DerType.UnsignedInt ∧ n._bytes.length = 1 ∧ n._bytes.headD 0 = version
    then .ok ()
    else .error .badVersion
  | none => .error .badVersion

/-- `getDerObjectID` (`Key.ts` 216–225): the content bytes of an
`ObjectIdentifier` node with more than one byte, else "Missing object in ...
key" (`badFormat`). -/
def getDerObjectID (node : Option DerNode) : Except KeyErr Bytes :=
  match node with
  | some n =>
    if n._tag = DerType.ObjectIdentifier ∧ n._bytes.length > 1
    then .ok n._bytes
    else .error .badFormat
  | none => .error .badFormat

/-- `getDerCurve` (`Key.ts` 227–233): look the OID up in `CurveLookup`;
an unknown OID throws "Unsupported ... EC curve" (`unknownCurve`). -/
def getDerCurve (node : Option DerNode) : Except KeyErr CurveType :=
  match getDerObjectID node with
  | .error e => .error e
  | .ok oid =>
    match CurveLookup oid with
    | some curve => .ok curve
    | none => .error .unknownCurve

/-- `getDerKey` (`Key.ts` 235–244): the content bytes of a node with the
given tag and more than one byte, else "Missing ... key node". -/
def getDerKey (node : Option DerNode) (derType : DerType := DerType.OctetString) :
    Except KeyErr Bytes :=
  match node with
  | some n =>
    if n._tag = derType ∧ n._bytes.length > 1
    then .ok n._bytes
    else .error .missingKeyNode
  | none => .error .missingKeyNode

/-- `node?._elements?.[i]` on an optional node. -/
def derChild (node : Option DerNode) (i : Nat) : Option DerNode :=
  (node.bind DerNode._elements).bind fun es => es.get? i

/-- `Translators.sec1.set` (`Key.ts` 249–268), over the decoded input:
version must be 1, the curve comes from `decoded._elements[2]._elements[0]`
via `getDerCurve`, the scalar from `decoded._elements[1]` as an octet
string; then `type = EC`, `curve`, `privateBits = key`. -/
def sec1Set (decoded : Option DerNode) (s : KeyState) : Except KeyErr KeyState :=
  match checkDerVersion (derChild decoded 0) 1 with
  | .error e => .error e
  | .ok _ =>
    match getDerCurve (derChild (derChild decoded 2) 0) with
    | .error e => .error e
    | .ok curve =>
      match getDerKey (derChild decoded 1) with
      | .error e => .error e
      | .ok key =>
        .ok (privateBitsSet { s with kty := some KeyType.EC, crv := some curve } (some key))

/-- `Translators.pkcs8.set` (`Key.ts` 276–305), over the decoded outer node
and the DER decoder for the inner octet string (modelled from the spec):
version must be 0, the algorithm OID must be `ecPublicKey`
("Unsupported PKCS #8 decryption algorithm" otherwise), the curve comes from
the second algorithm element, and the scalar from element 1 of the decoded
inner bytes. The source reads `outer?._elements?.[2]._bytes` without a guard
on the element itself, a JavaScript `TypeError` when it is absent. -/
def pkcs8Set (decode : Bytes → Option DerNode) (outer : Option DerNode) (s : KeyState) :
    Except KeyErr KeyState :=
  match checkDerVersion (derChild outer 0) 0 with
  | .error e => .error e
  | .ok _ =>
    match getDerObjectID (derChild (derChild outer 1) 0) with
    | .error e => .error e
    | .ok algorithm =>
      if algorithm ≠ oidEcPublicKey then .error .unsupportedAlgorithm
      else
        match getDerCurve (derChild (derChild outer 1) 1) with
        | .error e => .error e
        | .ok curve =>
          match derChild outer 2 with
          | none => .error .typeError
          | some innerNode =>
            let inner := decode innerNode._bytes
            match getDerKey (derChild inner 1) with
            | .error e => .error e
            | .ok key =>
              .ok (privateBitsSet { s with kty := some KeyType.EC, crv := some curve }
                (some key))

/-- `Translators.spki.set` (`Key.ts` 313–334), over the decoded input: the
algorithm OID must be `ecPublicKey`, the curve comes from the second
algorithm element, the point from element 1 as a bit string; then `type =
EC`, `curve`, and `publicBits = key` runs the raw public-point importer. -/
def spkiSet (decoded : Option DerNode) (s : KeyState) : Except KeyErr KeyState :=
  match getDerObjectID (derChild (derChild decoded 0) 0) with
  | .error e => .error e
  | .ok algorithm =>
    if algorithm ≠ oidEcPublicKey then .error .unsupportedAlgorithm
    else
      match getDerCurve (derChild (derChild decoded 0) 1) with
      | .error e => .error e
      | .ok curve =>
        match getDerKey (derChild decoded 1) DerType.BitString with
        | .error e => .error e
        | .ok key =>
          publicBitsSet { s with kty := some KeyType.EC, crv := some curve } key

/-! ## Concrete DER node trees used to evaluate the importers -/

/-- An `ObjectIdentifier` node with the given content bytes. -/
def oidNode (b : Bytes) : DerNode :=
  { _tag := DerType.ObjectIdentifier, _bytes := b, _elements := none }

/-- An `UnsignedInt` version node with a single content byte. -/
def versionNode (v : Nat) : DerNode :=
  { _tag := DerType.UnsignedInt, _bytes := [v], _elements := none }

/-- A 32-byte `OctetString` private-scalar node (bytes all 7). -/
def keyNode32 : DerNode :=
  { _tag := DerType.OctetString, _bytes := List.replicate 32 7, _elements := none }

/-- A well-formed decoded SEC1 private key: `SEQUENCE { INTEGER 1,
OCTET STRING scalar, [0] { OID curve } }`, with the given curve OID bytes. -/
def sec1Node (oid : Bytes) : DerNode :=
  { _tag := DerType.Sequence, _bytes := [],
    _elements := some [versionNode 1, keyNode32,
      { _tag := DerType.Sequence, _bytes := [], _elements := some [oidNode oid] }] }

/-- A 65-byte uncompressed P-256 public point as a `BitString` node. -/
def spkiPointNode : DerNode :=
  { _tag := DerType.BitString, _bytes := 4 :: List.replicate 64 9, _elements := none }

/-- A well-formed decoded SPKI public key: `SEQUENCE { SEQUENCE { OID
ecPublicKey, OID curve }, BIT STRING point }`, with the given curve OID. -/
def spkiNode (oid : Bytes) : DerNode :=
  { _tag := DerType.Sequence, _bytes := [],
    _elements := some [
      { _tag := DerType.Sequence, _bytes := [],
        _elements := some [oidNode oidEcPublicKey, oidNode oid] },
      spkiPointNode] }

/-- The decoded inner SEC1-like sequence of a PKCS #8 key: element 1 is the
scalar octet string. -/
def pkcs8InnerNode : DerNode :=
  { _tag := DerType.Sequence, _bytes := [],
    _elements := some [versionNode 1, keyNode32] }

/-- A well-formed decoded PKCS #8 outer node: `SEQUENCE { INTEGER 0,
SEQUENCE { OID ecPublicKey, OID curve }, OCTET STRING inner }`. -/
def pkcs8Node (oid : Bytes) : DerNode :=
  { _tag := DerType.Sequence, _bytes := [],
    _elements := some [versionNode 0,
      { _tag := DerType.Sequence, _bytes := [],
        _elements := some [oidNode oidEcPublicKey, oidNode oid] },
      { _tag := DerType.OctetString, _bytes := [1, 2], _elements := none }] }

/-- A DER decoder stub for the PKCS #8 inner bytes (modelled from the spec):
maps the inner octet-string content to the decoded inner sequence. -/
def pkcs8InnerDecode : Bytes → Option DerNode := fun _ => some pkcs8InnerNode

/-! ## Theorems

First the base64url codec lemmas, then the theorems settling the claims
about the key model. -/
/-- Decoding an alphabet character recovers its index. -/
theorem b64Val_b64Char : ∀ v < 64, b64Val (b64Char v) = some v := by decide

/-- Encoding then decoding is the identity on byte sequences. -/
theorem decodeB64_encodeB64 (bs : Bytes) (h : ∀ v ∈ bs, v < 256) :
    decodeB64 (encodeB64 bs) = bs := by
  induction bs using encodeB64.induct with
  | case1 => decide
  | case2 a =>
    have ha : a < 256 := h a (by simp)
    unfold decodeB64 encodeB64
    rw [List.filterMap_cons, List.filterMap_cons, List.filterMap_nil,
      b64Val_b64Char _ (by omega), b64Val_b64Char _ (by omega)]
    simp only [decodeVals, List.cons.injEq, and_true]
    omega
  | case3 a b =>
    have ha : a < 256 := h a (by simp)
    have hb : b < 256 := h b (by simp)
    unfold decodeB64 encodeB64
    rw [List.filterMap_cons, List.filterMap_cons, List.filterMap_cons,
      List.filterMap_nil, b64Val_b64Char _ (by omega), b64Val_b64Char _ (by omega),
      b64Val_b64Char _ (by omega)]
    simp only [decodeVals, List.cons.injEq, and_true]
    omega
  | case4 a b c rest ih =>
    have ha : a < 256 := h a (by simp)
    have hb : b < 256 := h b (by simp)
    have hc : c < 256 := h c (by simp)
    have hrest : ∀ v ∈ rest, v < 256 := fun v hv => h v (by simp [hv])
    have ihe : decodeVals ((encodeB64 rest).filterMap b64Val) = rest := ih hrest
    unfold decodeB64 encodeB64
    rw [List.filterMap_cons, List.filterMap_cons, List.filterMap_cons,
      List.filterMap_cons, b64Val_b64Char _ (by omega), b64Val_b64Char _ (by omega),
      b64Val_b64Char _ (by omega), b64Val_b64Char _ (by omega)]
    simp only [decodeVals, List.cons.injEq]
    refine ⟨by omega, by omega, by omega, ihe⟩

/-- Alphabet characters pass the alphabet check. -/
theorem isB64urlChar_b64Char : ∀ v < 64, isB64urlChar (b64Char v) = true := by decide

/-- Every character emitted by the encoder is in the base64url alphabet. -/
theorem encodeB64_all_chars (bs : Bytes) (h : ∀ v ∈ bs, v < 256) :
    (encodeB64 bs).all isB64urlChar = true := by
  induction bs using encodeB64.induct with
  | case1 => decide
  | case2 a =>
    have ha : a < 256 := h a (by simp)
    simp only [encodeB64, List.all_cons, List.all_nil, Bool.and_true,
      isB64urlChar_b64Char _ (by omega : a / 4 < 64),
      isB64urlChar_b64Char _ (by omega : a % 4 * 16 < 64), Bool.and_self]
  | case3 a b =>
    have ha : a < 256 := h a (by simp)
    have hb : b < 256 := h b (by simp)
    simp only [encodeB64, List.all_cons, List.all_nil, Bool.and_true,
      isB64urlChar_b64Char _ (by omega : a / 4 < 64),
      isB64urlChar_b64Char _ (by omega : a % 4 * 16 + b / 16 < 64),
      isB64urlChar_b64Char _ (by omega : b % 16 * 4 < 64), Bool.and_self]
  | case4 a b c rest ih =>
    have ha : a < 256 := h a (by simp)
    have hb : b < 256 := h b (by simp)
    have hc : c < 256 := h c (by simp)
    have hrest : ∀ v ∈ rest, v < 256 := fun v hv => h v (by simp [hv])
    simp only [encodeB64, List.all_cons,
      isB64urlChar_b64Char _ (by omega : a / 4 < 64),
      isB64urlChar_b64Char _ (by omega : a % 4 * 16 + b / 16 < 64),
      isB64urlChar_b64Char _ (by omega : b % 16 * 4 + c / 64 < 64),
      isB64urlChar_b64Char _ (by omega : c % 64 < 64), Bool.true_and]
    exact ih hrest

/-- The encoder's output length is never congruent to 1 modulo 4 (it emits
4-character groups with a final group of 0, 2 or 3 characters). -/
theorem encodeB64_length_mod4 (bs : Bytes) : (encodeB64 bs).length % 4 ≠ 1 := by
  induction bs using encodeB64.induct with
  | case1 => decide
  | case2 a => simp only [encodeB64, List.length_cons, List.length_nil]; omega
  | case3 a b => simp only [encodeB64, List.length_cons, List.length_nil]; omega
  | case4 a b c rest ih =>
    simp only [encodeB64, List.length_cons]
    omega

/-- The encoder produces unpadded base64url text. -/
theorem isUnpaddedB64url_encodeB64 (bs : Bytes) (h : ∀ v ∈ bs, v < 256) :
    isUnpaddedB64url (encodeB64 bs) = true := by
  simp only [isUnpaddedB64url, Bool.and_eq_true, decide_eq_true_eq]
  exact ⟨encodeB64_all_chars bs h, encodeB64_length_mod4 bs⟩

/-! ### Helper lemmas about `inferCurve`, `ecNormalize` and `Except` -/

/-- An `Except` with `isOk` set is an `ok`. -/
theorem exists_ok_of_isOk {e a : Type} (r : Except e a) (h : r.isOk = true) :
    ∃ v, r = .ok v := by
  cases r with
  | error err => simp [Except.isOk, Except.toBool] at h
  | ok v => exact ⟨v, rfl⟩

/-- With a curve already set, `inferCurve` is the identity. -/
theorem inferCurve_isSome (s : KeyState) (n : Nat) (h : s.crv.isSome = true) :
    inferCurve s n = .ok s := by simp [inferCurve, h]

/-- With no curve set, length 32 infers P-256. -/
theorem inferCurve_none_32 (s : KeyState) (h : s.crv = none) :
    inferCurve s 32 = .ok { s with crv := some CurveType.p256 } := by
  simp [inferCurve, h]

/-- With no curve set, length 48 infers P-384. -/
theorem inferCurve_none_48 (s : KeyState) (h : s.crv = none) :
    inferCurve s 48 = .ok { s with crv := some CurveType.p384 } := by
  simp [inferCurve, h]

/-- With no curve set, length 66 infers P-521. -/
theorem inferCurve_none_66 (s : KeyState) (h : s.crv = none) :
    inferCurve s 66 = .ok { s with crv := some CurveType.p521 } := by
  simp [inferCurve, h]

/-- With no curve set and an unsupported length, `inferCurve` fails with
`unknownCurve`. -/
theorem inferCurve_none_unknown (s : KeyState) (n : Nat) (h : s.crv = none)
    (h32 : n ≠ 32) (h48 : n ≠ 48) (h66 : n ≠ 66) :
    inferCurve s n = .error .unknownCurve := by
  unfold inferCurve
  rw [if_neg (by simp [h])]
  split <;> simp_all

/-- The encoder output is empty exactly when the input is. -/
theorem encodeB64_isEmpty : ∀ l : Bytes, (encodeB64 l).isEmpty = l.isEmpty
  | [] => rfl
  | [_] => rfl
  | [_, _] => rfl
  | _ :: _ :: _ :: _ => rfl

/-- On an EC state with a curve already set and truthy `x` and `y`, the
factory's EC block is the identity: inference is a no-op and the derivation
guard `that.d && (!that.x || !that.y)` is false. -/
theorem ecNormalize_full (ec : ECProvider) (s : KeyState)
    (hkty : s.kty = some KeyType.EC) (hcrv : s.crv.isSome = true)
    (hx : xTruthy s = true) (hy : yTruthy s = true) :
    ecNormalize ec s = .ok s := by
  unfold ecNormalize
  rw [if_pos hkty]
  have h1 : (if dTruthy s then inferCurve s (privateKeyLen s)
      else if s.x.isSome then inferCurve s (xBitsLen s) else .ok s) = .ok s := by
    cases hdt : dTruthy s with
    | true => simp [hdt, inferCurve_isSome s _ hcrv]
    | false =>
      cases hxs : s.x.isSome with
      | true => simp [hdt, hxs, inferCurve_isSome s _ hcrv]
      | false => simp [hdt, hxs]
  simp only [h1]
  simp [hx, hy]

/-- C1: the claim states that the canonical P-384/P-521 OIDs (DER content
bytes `2b81040022` / `2b81040023`) map to P-384/P-521 and that any other OID
fails with `UnknownCurve`. Evaluating the code: the P-256 OID
`2a8648ce3d030107` does map to P-256, but the canonical P-384 and P-521 OIDs
are NOT in `CurveLookup` — every importer (SEC1, PKCS #8, SPKI) rejects them
with `unknownCurve` — while the non-canonical byte strings `0103840022` /
`0103840023` are the ones accepted as P-384/P-521. This contradicts the
claim (and the enum names `prime384r1`/`prime521r1` that document the
code's intent): a code bug. -/
theorem c1_curve_oid_lookup :
    getDerCurve (some (oidNode oidPrime256r1)) = .ok CurveType.p256
    ∧ getDerCurve (some (oidNode canonicalP384Oid)) = .error .unknownCurve
    ∧ getDerCurve (some (oidNode canonicalP521Oid)) = .error .unknownCurve
    ∧ sec1Set (some (sec1Node canonicalP384Oid)) {} = .error .unknownCurve
    ∧ spkiSet (some (spkiNode canonicalP384Oid)) {} = .error .unknownCurve
    ∧ pkcs8Set pkcs8InnerDecode (some (pkcs8Node canonicalP521Oid)) {} = .error .unknownCurve
    ∧ sec1Set (some (sec1Node oidPrime256r1)) {} =
        .ok { kty := some KeyType.EC, crv := some CurveType.p256,
              d := some (encodeB64 (List.replicate 32 7)) }
    ∧ sec1Set (some (sec1Node oidPrime384r1)) {} =
        .ok { kty := some KeyType.EC, crv := some CurveType.p384,
              d := some (encodeB64 (List.replicate 32 7)) }
    ∧ sec1Set (some (sec1Node canonicalP521Oid)) {} = .error .unknownCurve := by
  refine ⟨?_, ?_, ?_, ?_, ?_, ?_, ?_, ?_, ?_⟩ <;> decide

/-! ### Claim C2 — `SymmetricKey` and the `k` field -/

/-- C2 counterexample: `SymmetricKey([1,2,3])` yields a key whose `k` field
is undefined; the private bytes land in `d` (as base64url `AQID`), not in
`k` as the claim states. -/
theorem c2_symmetric_key_counterexample :
    SymmetricKey ecStub [1, 2, 3] =
      .ok { kty := some KeyType.oct, d := some (encodeB64 [1, 2, 3]), k := none }
    ∧ (none : Option Str) ≠ some (encodeB64 [1, 2, 3]) := by decide

/-- C2 (amended): for every byte array `raw`, `SymmetricKey(raw)` has
`kty = oct` and the JWK field `d` — not `k` — set to the base64url encoding
of `raw` (the bytes are routed through the `privateKey` asserted alias into
the `privateBits` codec, whose base field is `d`); `k` is left undefined. -/
theorem c2_symmetric_key_sets_d (ec : ECProvider) (raw : Bytes) :
    SymmetricKey ec raw =
      .ok { kty := some KeyType.oct, d := some (encodeB64 raw), k := none } := rfl

/-! ### Claim C3 — derived coordinate width -/

/-- C3: the claim states derived `xBits`/`yBits` are exactly the curve's
field size (32 bytes for P-256), zero-padded on the left. The code instead
stores `ecKey.getX().toArray()` — the minimal-length big-endian bytes, with
no padding. Evaluating the factory on a P-256 key whose provider returns the
affine point (1, 1): both installed coordinates decode to the single byte
`[1]`, of length 1 rather than 32. (Real P-256 points with a leading zero
byte in a coordinate exist with probability about 1/256 per coordinate; the
resulting `publicBits` export `04 ‖ x ‖ y` then even has even length, which
the code's own raw-point importer rejects as `BadFormat`.) -/
theorem c3_derived_coordinates_unpadded :
    Key ecStub { type := some KeyType.EC, curve := some CurveType.p256, d := some [65, 81] } =
      .ok { kty := some KeyType.EC, crv := some CurveType.p256, d := some [65, 81],
            x := some (encodeB64 [1]), y := some (encodeB64 [1]) }
    ∧ xBitsGet { kty := some KeyType.EC, crv := some CurveType.p256, d := some [65, 81],
                 x := some (encodeB64 [1]), y := some (encodeB64 [1]) } = CodecRead.bytes [1]
    ∧ ([1] : Bytes).length ≠ 32 := by decide

/-! ### Claim C4 — asserted aliases on construction -/

/-- C4 counterexample: constructing `Key({ d: "AA", privateKey: [1] })` — so
the target chain `privateBits → d` is already set (`"AA"`, decoding to
`[0]`) when the asserted alias is applied — ends with `d = "AQ"`: the
asserted `privateKey` write replaced the earlier value, refuting the claim
that the earlier value is left unchanged. -/
theorem c4_asserted_alias_overwrite_counterexample :
    Key ecStub { d := some [65, 65], privateKey := some [1] } = .ok { d := some [65, 81] }
    ∧ privateBitsGet { d := some [65, 65] } = CodecRead.bytes [0]
    ∧ ([65, 81] : Str) ≠ [65, 65] := by decide

/-- C4 (amended): during construction, the asserted aliases `publicKey`,
`privateKey` and `keyPair` are applied with no check that the underlying
target is already set — `assign` and the asserted setter are unconditional.
A `privateKey` input always overwrites an already-set `d` with the encoding
of the alias value; `publicKey` and `keyPair` inputs write through the
raw-point importer, which on a valid uncompressed point overwrites the
previously set coordinates (and, for `keyPair`, also `d`) with values
derived from the alias input, and on invalid bytes fails the construction
instead of preserving the earlier values. -/
theorem c4_asserted_alias_writes_unconditionally (ec : ECProvider) (d0 x0 y0 : Str)
    (v : Bytes) (input pub priv : Bytes) :
    Key ec { d := some d0, privateKey := some v } = .ok { d := some (encodeB64 v) }
    ∧ (input.length = 65 → input.headD 0 = 4 →
        ∃ s, Key ec { x := some x0, y := some y0, publicKey := some input } = .ok s
          ∧ s.x = some (encodeB64 ((input.drop 1).take 32))
          ∧ s.y = some (encodeB64 (input.drop 33)))
    ∧ (pub.length = 65 → pub.headD 0 = 4 →
        ∃ s, Key ec { d := some d0, x := some x0, y := some y0,
                      keyPair := some ⟨pub, priv⟩ } = .ok s
          ∧ s.d = some (encodeB64 priv)
          ∧ s.x = some (encodeB64 ((pub.drop 1).take 32))
          ∧ s.y = some (encodeB64 (pub.drop 33)))
    ∧ Key ec { x := some x0, y := some y0, publicKey := some [2, 0, 0] } =
        .error .unsupportedCompression := by
  refine ⟨rfl, ?_, ?_, rfl⟩
  · intro hlen hhead
    have hhead2 : (input.head?).getD 0 = 4 := by simpa using hhead
    have hpb : publicBitsSet { x := some x0, y := some y0 } input =
        .ok { kty := some KeyType.EC, crv := some CurveType.p256,
              x := some (encodeB64 ((input.drop 1).take 32)),
              y := some (encodeB64 (input.drop 33)) } := by
      simp [publicBitsSet, hlen, hhead2,
        inferCurve_none_32 ({ x := some x0, y := some y0 } : KeyState) rfl,
        xBitsSet, yBitsSet]
    have hkey : Key ec { x := some x0, y := some y0, publicKey := some input } =
        match publicBitsSet { x := some x0, y := some y0 } input with
        | .error e => .error e
        | .ok s1 => ecNormalize ec s1 := rfl
    rw [hkey, hpb]
    refine ⟨{ kty := some KeyType.EC, crv := some CurveType.p256,
              x := some (encodeB64 ((input.drop 1).take 32)),
              y := some (encodeB64 (input.drop 33)) }, ?_, rfl, rfl⟩
    show ecNormalize ec _ = _
    simp [ecNormalize, dTruthy, inferCurve]
  · intro hlen hhead
    have hhead2 : (pub.head?).getD 0 = 4 := by simpa using hhead
    have hxlen : ((pub.drop 1).take 32).length = 32 := by
      simp [List.length_take, List.length_drop, hlen]
    have hylen : (pub.drop 33).length = 32 := by
      simp [List.length_drop, hlen]
    have hxe : ((pub.drop 1).take 32).isEmpty = false := by
      cases hc : (pub.drop 1).take 32 with
      | nil => rw [hc] at hxlen; simp at hxlen
      | cons a t => rfl
    have hye : (pub.drop 33).isEmpty = false := by
      cases hc : pub.drop 33 with
      | nil => rw [hc] at hylen; simp at hylen
      | cons a t => rfl
    have hpb : publicBitsSet { d := some d0, x := some x0, y := some y0 } pub =
        .ok { kty := some KeyType.EC, crv := some CurveType.p256, d := some d0,
              x := some (encodeB64 ((pub.drop 1).take 32)),
              y := some (encodeB64 (pub.drop 33)) } := by
      simp [publicBitsSet, hlen, hhead2,
        inferCurve_none_32 ({ d := some d0, x := some x0, y := some y0 } : KeyState) rfl,
        xBitsSet, yBitsSet]
    have hkp : keyPairBitsSet { d := some d0, x := some x0, y := some y0 } ⟨pub, priv⟩ =
        .ok { kty := some KeyType.EC, crv := some CurveType.p256,
              d := some (encodeB64 priv),
              x := some (encodeB64 ((pub.drop 1).take 32)),
              y := some (encodeB64 (pub.drop 33)) } := by
      simp [keyPairBitsSet, hpb, privateBitsSet]
    have hkey : Key ec { d := some d0, x := some x0, y := some y0,
                         keyPair := some ⟨pub, priv⟩ } =
        match keyPairBitsSet { d := some d0, x := some x0, y := some y0 } ⟨pub, priv⟩ with
        | .error e => .error e
        | .ok s1 => ecNormalize ec s1 := rfl
    rw [hkey, hkp]
    refine ⟨_, ecNormalize_full ec _ rfl rfl ?hx ?hy, rfl, rfl, rfl⟩
    · show (!(encodeB64 ((pub.drop 1).take 32)).isEmpty) = true
      rw [encodeB64_isEmpty, hxe]; rfl
    · show (!(encodeB64 (pub.drop 33)).isEmpty) = true
      rw [encodeB64_isEmpty, hye]; rfl

/-- C4 witness: concrete overwrites through the `publicKey` and `keyPair`
asserted aliases on keys whose coordinates (and `d`) were already set. -/
theorem c4_asserted_alias_writes_unconditionally_witness :
    (∃ s, Key ecStub { x := some [66], y := some [67], publicKey := some (4 :: List.range 64) } = .ok s
      ∧ s.x = some (encodeB64 (((4 :: List.range 64).drop 1).take 32))
      ∧ s.y = some (encodeB64 ((4 :: List.range 64).drop 33)))
    ∧ (∃ s, Key ecStub { d := some [65, 65], x := some [66], y := some [67], keyPair := some ⟨4 :: List.range 64, [9]⟩ } = .ok s
      ∧ s.d = some (encodeB64 [9])
      ∧ s.x = some (encodeB64 (((4 :: List.range 64).drop 1).take 32))
      ∧ s.y = some (encodeB64 ((4 :: List.range 64).drop 33))) :=
  ⟨(c4_asserted_alias_writes_unconditionally ecStub [65, 65] [66] [67] [1]
      (4 :: List.range 64) (4 :: List.range 64) [9]).2.1 (by decide) (by decide),
   (c4_asserted_alias_writes_unconditionally ecStub [65, 65] [66] [67] [1]
      (4 :: List.range 64) (4 :: List.range 64) [9]).2.2.1 (by decide) (by decide)⟩

/-! ### Claim C5 — curve inference at construction -/

/-- C6 counterexample: the odd-length input `[0x04]` with first byte 4 is
NOT accepted as the claim states: curve inference on coordinate length 0
fails with `unknownCurve`. -/
theorem c6_format_byte_counterexample :
    publicBitsSet {} [4] = .error .unknownCurve := by decide

/-- C6 (amended): for every byte array passed to the raw SEC1 public-point
importer, an even length fails with `BadFormat`; an odd-length input with
first byte 2 or 3 fails with `UnsupportedCompression`; first byte 5 fails
with `BadFormat`; first byte 4 passes the format checks, and the import then
succeeds when the curve is already set or the coordinate length
`(length - 1) / 2` is 32, 48 or 66, but fails with `UnknownCurve` otherwise. -/
theorem c6_raw_point_format_errors (s : KeyState) (input : Bytes) :
    (input.length % 2 = 0 → publicBitsSet s input = .error .badFormat)
    ∧ (input.length % 2 = 1 → (input.headD 0 = 2 ∨ input.headD 0 = 3) →
        publicBitsSet s input = .error .unsupportedCompression)
    ∧ (input.length % 2 = 1 → input.headD 0 = 5 →
        publicBitsSet s input = .error .badFormat)
    ∧ (input.length % 2 = 1 → input.headD 0 = 4 →
        ((s.crv.isSome = true ∨ (input.length - 1) / 2 = 32 ∨ (input.length - 1) / 2 = 48
            ∨ (input.length - 1) / 2 = 66) →
          ∃ s2, publicBitsSet s input = .ok s2)
        ∧ (s.crv = none → (input.length - 1) / 2 ≠ 32 → (input.length - 1) / 2 ≠ 48 →
            (input.length - 1) / 2 ≠ 66 →
          publicBitsSet s input = .error .unknownCurve)) := by
  refine ⟨?_, ?_, ?_, ?_⟩
  · intro h
    simp [publicBitsSet, h]
  · intro h hd
    have h0 : ¬ input.length % 2 = 0 := by omega
    have hd' : (input.head?).getD 0 = 2 ∨ (input.head?).getD 0 = 3 := by
      simpa using hd
    rcases hd' with hd' | hd' <;> simp [publicBitsSet, h0, hd']
  · intro h h5
    have h0 : ¬ input.length % 2 = 0 := by omega
    have h5' : (input.head?).getD 0 = 5 := by simpa using h5
    simp [publicBitsSet, h0, h5']
  · intro h h4
    have h0 : ¬ input.length % 2 = 0 := by omega
    have h4' : (input.head?).getD 0 = 4 := by simpa using h4
    constructor
    · intro hacc
      have hinf : ∃ s1, inferCurve s ((input.length - 1) / 2) = .ok s1 := by
        rcases hacc with hc | h32 | h48 | h66
        · exact ⟨s, inferCurve_isSome s _ hc⟩
        · cases hcv : s.crv with
          | some c => exact ⟨s, inferCurve_isSome s _ (by simp [hcv])⟩
          | none => exact ⟨_, by rw [h32]; exact inferCurve_none_32 s hcv⟩
        · cases hcv : s.crv with
          | some c => exact ⟨s, inferCurve_isSome s _ (by simp [hcv])⟩
          | none => exact ⟨_, by rw [h48]; exact inferCurve_none_48 s hcv⟩
        · cases hcv : s.crv with
          | some c => exact ⟨s, inferCurve_isSome s _ (by simp [hcv])⟩
          | none => exact ⟨_, by rw [h66]; exact inferCurve_none_66 s hcv⟩
      obtain ⟨s1, hs1⟩ := hinf
      refine exists_ok_of_isOk _ ?_
      simp [publicBitsSet, h0, h4', hs1, Except.isOk, Except.toBool]
    · intro hnone h32 h48 h66
      simp [publicBitsSet, h0, h4',
        inferCurve_none_unknown s _ hnone h32 h48 h66]

/-- C6 witness: concrete instances of every branch — even length, compressed
prefix, illegal prefix 5, acceptance with a preset curve, and the
`UnknownCurve` failure of `[4, 9, 9]` on an empty key. -/
theorem c6_raw_point_format_errors_witness :
    publicBitsSet {} [4, 1] = .error .badFormat
    ∧ publicBitsSet {} [2, 0, 0] = .error .unsupportedCompression
    ∧ publicBitsSet {} [5, 0, 0] = .error .badFormat
    ∧ (∃ s2, publicBitsSet { crv := some CurveType.p256 } [4, 9, 9] = .ok s2)
    ∧ publicBitsSet {} [4, 9, 9] = .error .unknownCurve :=
  ⟨(c6_raw_point_format_errors {} [4, 1]).1 (by decide),
   (c6_raw_point_format_errors {} [2, 0, 0]).2.1 (by decide) (by decide),
   (c6_raw_point_format_errors {} [5, 0, 0]).2.2.1 (by decide) (by decide),
   ((c6_raw_point_format_errors { crv := some CurveType.p256 } [4, 9, 9]).2.2.2
     (by decide) (by decide)).1 (by decide),
   ((c6_raw_point_format_errors {} [4, 9, 9]).2.2.2 (by decide) (by decide)).2 rfl
     (by decide) (by decide) (by decide)⟩

/-! ### Claim C7 — unvalidated format bytes -/

/-- C7 counterexample: the claim says every odd-length input with first byte
outside 2, 3, 4, 5 is accepted "without any error"; the input `[0x00]` has
first byte 0 and odd length, yet the importer fails with `unknownCurve`
(coordinate length 0 supports no curve). -/
theorem c7_unvalidated_format_byte_counterexample :
    publicBitsSet {} [0] = .error .unknownCurve := by decide

/-- C7 (amended): the raw public-point importer performs no validation of
the format byte beyond rejecting 2, 3 and 5: for every state and every tail,
an input whose first byte is not 2, 3 or 5 behaves exactly as the same input
with first byte 4 — same curve inference and identical coordinate split —
so it is accepted exactly when the 4-prefixed input is (curve already set,
or coordinate length 32/48/66; otherwise `UnknownCurve`). -/
theorem c7_unvalidated_format_byte (s : KeyState) (b : Nat) (rest : Bytes)
    (h2 : b ≠ 2) (h3 : b ≠ 3) (h5 : b ≠ 5) :
    publicBitsSet s (b :: rest) = publicBitsSet s (4 :: rest) := by
  by_cases hlen : (rest.length + 1) % 2 = 0
  · simp [publicBitsSet, hlen]
  · simp [publicBitsSet, hlen, h2, h3, h5]

/-- C7 witness: a 0x06-prefixed point imports exactly as the 0x04-prefixed
one. -/
theorem c7_unvalidated_format_byte_witness :
    publicBitsSet {} [6, 8, 9] = publicBitsSet {} [4, 8, 9] :=
  c7_unvalidated_format_byte {} 6 [8, 9] (by decide) (by decide) (by decide)

/-! ### Claim C8 — 65-byte uncompressed P-256 point -/

/-- C8: for every 65-byte input whose first byte is 4, the key constructed
from it (as `publicBits`) has curve P-256, and its `xBits`/`yBits` are the
32-byte halves — bytes 1..32 and 33..64 of the input. -/
theorem c8_raw_point_p256 (ec : ECProvider) (input : Bytes)
    (hlen : input.length = 65) (hhead : input.headD 0 = 4)
    (hB : ∀ v ∈ input, v < 256) :
    ∃ s, Key ec { publicBits := some input } = .ok s
      ∧ s.crv = some CurveType.p256
      ∧ xBitsGet s = CodecRead.bytes ((input.drop 1).take 32)
      ∧ yBitsGet s = CodecRead.bytes (input.drop 33)
      ∧ ((input.drop 1).take 32).length = 32
      ∧ (input.drop 33).length = 32 := by
  have hhead' : (input.head?).getD 0 = 4 := by simpa using hhead
  have hpb : publicBitsSet {} input =
      .ok { kty := some KeyType.EC, crv := some CurveType.p256,
            x := some (encodeB64 ((input.drop 1).take 32)),
            y := some (encodeB64 (input.drop 33)) } := by
    simp [publicBitsSet, hlen, hhead', inferCurve_none_32 ({} : KeyState) rfl,
      xBitsSet, yBitsSet]
  have hkey : Key ec { publicBits := some input } =
      match publicBitsSet {} input with
      | .error e => .error e
      | .ok s1 => ecNormalize ec s1 := rfl
  rw [hkey, hpb]
  refine ⟨{ kty := some KeyType.EC, crv := some CurveType.p256,
            x := some (encodeB64 ((input.drop 1).take 32)),
            y := some (encodeB64 (input.drop 33)) }, ?_, rfl, ?_, ?_, ?_, ?_⟩
  · show ecNormalize ec _ = _
    simp [ecNormalize, dTruthy, inferCurve]
  · have hx : ∀ v ∈ input.tail.take 32, v < 256 := by
      intro v hv
      have h1 : v ∈ input.drop 1 := by
        rw [List.drop_one]
        exact List.mem_of_mem_take hv
      exact hB v (List.mem_of_mem_drop h1)
    simp [xBitsGet, decodeB64_encodeB64 _ hx]
  · have hy : ∀ v ∈ input.drop 33, v < 256 := fun v hv =>
      hB v (List.mem_of_mem_drop hv)
    simp [yBitsGet, decodeB64_encodeB64 _ hy]
  · simp [List.length_take, List.length_drop, hlen]
  · simp [List.length_drop, hlen]

/-- C8 witness: the concrete 65-byte input `04 ‖ 00 01 … 3F`. -/
theorem c8_raw_point_p256_witness :
    ∃ s, Key ecStub { publicBits := some (4 :: List.range 64) } = .ok s
      ∧ s.crv = some CurveType.p256
      ∧ xBitsGet s = CodecRead.bytes (((4 :: List.range 64).drop 1).take 32)
      ∧ yBitsGet s = CodecRead.bytes ((4 :: List.range 64).drop 33)
      ∧ (((4 :: List.range 64).drop 1).take 32).length = 32
      ∧ ((4 :: List.range 64).drop 33).length = 32 :=
  c8_raw_point_p256 ecStub (4 :: List.range 64) (by decide) (by decide) (by decide)

/-! ### Claim C9 — binary alias round-trip -/

/-- C9: writing a binary alias (`privateBits`, `xBits`, `yBits`) with bytes
`b` stores the corresponding base JWK string field (`d`, `x`, `y`) as
unpadded base64url text and reading the alias back yields exactly `b`;
conversely, reading the alias of a base field holding a string yields the
bytes that string decodes to. -/
theorem c9_binary_alias_roundtrip (s : KeyState) (b : Bytes) (str : Str)
    (hB : ∀ v ∈ b, v < 256) :
    ((privateBitsSet s (some b)).d = some (encodeB64 b)
      ∧ isUnpaddedB64url (encodeB64 b) = true
      ∧ privateBitsGet (privateBitsSet s (some b)) = CodecRead.bytes b)
    ∧ ((xBitsSet s (some b)).x = some (encodeB64 b)
      ∧ xBitsGet (xBitsSet s (some b)) = CodecRead.bytes b)
    ∧ ((yBitsSet s (some b)).y = some (encodeB64 b)
      ∧ yBitsGet (yBitsSet s (some b)) = CodecRead.bytes b)
    ∧ privateBitsGet { s with d := some str } = CodecRead.bytes (decodeB64 str)
    ∧ xBitsGet { s with x := some str } = CodecRead.bytes (decodeB64 str)
    ∧ yBitsGet { s with y := some str } = CodecRead.bytes (decodeB64 str) := by
  refine ⟨⟨rfl, isUnpaddedB64url_encodeB64 b hB, ?_⟩, ⟨rfl, ?_⟩, ⟨rfl, ?_⟩, rfl, rfl, rfl⟩ <;>
    simp [privateBitsGet, privateBitsSet, xBitsGet, xBitsSet, yBitsGet, yBitsSet,
      decodeB64_encodeB64 b hB]

/-- C9 witness: the bytes `[0, 1, 255]` and the base64url string `AQID`. -/
theorem c9_binary_alias_roundtrip_witness :
    ((privateBitsSet {} (some [0, 1, 255])).d = some (encodeB64 [0, 1, 255])
      ∧ isUnpaddedB64url (encodeB64 [0, 1, 255]) = true
      ∧ privateBitsGet (privateBitsSet {} (some [0, 1, 255])) = CodecRead.bytes [0, 1, 255])
    ∧ ((xBitsSet {} (some [0, 1, 255])).x = some (encodeB64 [0, 1, 255])
      ∧ xBitsGet (xBitsSet {} (some [0, 1, 255])) = CodecRead.bytes [0, 1, 255])
    ∧ ((yBitsSet {} (some [0, 1, 255])).y = some (encodeB64 [0, 1, 255])
      ∧ yBitsGet (yBitsSet {} (some [0, 1, 255])) = CodecRead.bytes [0, 1, 255])
    ∧ privateBitsGet { d := some [65, 81, 73, 68] } = CodecRead.bytes (decodeB64 [65, 81, 73, 68])
    ∧ xBitsGet { x := some [65, 81, 73, 68] } = CodecRead.bytes (decodeB64 [65, 81, 73, 68])
    ∧ yBitsGet { y := some [65, 81, 73, 68] } = CodecRead.bytes (decodeB64 [65, 81, 73, 68]) :=
  c9_binary_alias_roundtrip {} [0, 1, 255] [65, 81, 73, 68] (by decide)

/-! ### Claim C10 — asserted reads on missing fields -/

/-- C10: the claim states that whenever the underlying binary alias resolves
to undefined, reading the asserted alias `publicKey` / `privateKey` /
`keyPair` fails with `MissingField`, and in particular that `Key({})` plus a
`publicKey` read signals `MissingField`. In the source the Base64 codec
getters return the JavaScript value `false` — never `undefined` — when the
base field is unset, which defeats every strict `=== undefined` check on the
read paths: on the empty key, reading `publicKey` raises a `TypeError`
(spreading `false` into `[0x04, ...]`), reading `privateKey` returns `false`
with no error at all, and reading `keyPair` raises the same `TypeError`;
with both coordinates set but no `d`, `keyPair` even returns a malformed
pair whose `privateKey` member is `false`. The `MissingField` throw-site is
dead code on all three read paths (first two conjuncts), while the spec
(S6, §3.3) clearly states the intended `MissingField` behavior: a code bug. -/
theorem c10_asserted_read_missing_field :
    (∀ s : KeyState, publicKeyGet s ≠ .error .missingField)
    ∧ (∀ s : KeyState, keyPairGet s ≠ .error .missingField)
    ∧ publicKeyGet {} = .error .typeError
    ∧ privateKeyGet {} = .jsFalse
    ∧ keyPairGet {} = .error .typeError
    ∧ keyPairGet { x := some [65, 65], y := some [65, 65] } =
        .ok ⟨4 :: (decodeB64 [65, 65] ++ decodeB64 [65, 65]), .jsFalse⟩
    ∧ Key ecStub {} = .ok {} := by
  refine ⟨?_, ?_, by decide, by decide, by decide, by decide, by decide⟩
  · intro s h
    unfold publicKeyGet publicBitsGet at h
    cases hx : xBitsGet s <;> cases hy : yBitsGet s <;> rw [hx, hy] at h <;> simp at h
  · intro s h
    unfold keyPairGet keyPairBitsGet publicBitsGet at h
    cases hx : xBitsGet s <;> cases hy : yBitsGet s <;> rw [hx, hy] at h <;> simp at h

/-- C10 witness: the unreachability conjuncts instantiated at the empty key
state. -/
theorem c10_asserted_read_missing_field_witness :
    publicKeyGet {} ≠ .error .missingField
    ∧ keyPairGet {} ≠ .error .missingField :=
  ⟨c10_asserted_read_missing_field.1 {}, c10_asserted_read_missing_field.2.1 {}⟩
